import Mathlib

/-!
Shallow embedding of the Koo-Toueg coordinated checkpointing simulation
(`src/app.py`): the `Process` state machine, the `SimulationController`
engine, the two-phase checkpoint protocol (`initiate_checkpoint`), the
global rollback recovery protocol (`initiate_recovery`) and the step loop
(`step_computation`).

Modelling conventions:
* Python floats are modelled as `Rat`; every perturbation drawn from
  `random.uniform` and every coin flip `random.random() > 0.7` is supplied
  explicitly through a `Noise` record (the pluggable noise source), so
  `simulate_computation` is a pure function of the state and the noise.
* `time.time()` timestamps and `uuid` checkpoint ids are supplied through a
  generator function `gen : Nat → Nat × Nat` mapping the pid to the pair
  (timestamp, checkpoint id); the protocol logic never inspects them.
* Python object references inside the controller's `processes` list are
  modelled by list positions; in-place mutation of the object held at a
  position becomes functional update of that position.
* `socketio.emit` log lines are modelled as structured `Event` values
  (the spec's event surface); `socketio.sleep` pacing is dropped, giving the
  sequential (non-interleaved) semantics of one protocol run.
-/

namespace KooToueg

/-- The `self.state` dict of a process: four named numeric fields plus the
computation step counter. -/
structure PState where
  temperature : Rat
  pressure : Rat
  wind_speed : Rat
  humidity : Rat
  computation_step : Nat
deriving DecidableEq

/-- One step's worth of randomness for `simulate_computation`: the four
already-drawn `random.uniform` deltas and the two `random.random() > 0.7`
message coin flips. -/
structure Noise where
  dTemp : Rat
  dPres : Rat
  dWind : Rat
  dHum : Rat
  sendMsg : Bool
  recvMsg : Bool
deriving DecidableEq

/-- The checkpoint dict built by `take_tentative_checkpoint`. -/
structure Checkpoint where
  pid : Nat
  timestamp : Nat
  state : PState
  sent_counter : List (Nat × Nat)
  rcvd_counter : List (Nat × Nat)
  ctype : String
  checkpoint_id : Nat
deriving DecidableEq

/-- The `Process` class of `src/app.py`. -/
structure Process where
  pid : Nat
  custom_name : String
  num_processes : Nat
  state : PState
  checkpoints : List Checkpoint
  sent_counter : List (Nat × Nat)
  rcvd_counter : List (Nat × Nat)
  is_failed : Bool
  status : String
  checkpoint_type : Option String
  messages_sent : Nat
  messages_received : Nat
deriving DecidableEq

/-- The randomized offsets drawn in `Process.__init__` for the four state
fields. -/
structure InitRand where
  rTemp : Rat
  rPres : Rat
  rWind : Rat
  rHum : Rat
deriving DecidableEq

/-- `Process.__init__`: `custom_name or f"Node-{pid}"` (Python `or` treats
`None` and the empty string as falsy), randomized initial vars within fixed
bounds, empty checkpoint history, running and not failed. -/
def Process.init (pid : Nat) (num_processes : Nat) (custom_name : Option String)
    (r : InitRand) : Process :=
  { pid := pid
    custom_name :=
      match custom_name with
      | some s => if s = "" then "Node-" ++ toString pid else s
      | none => "Node-" ++ toString pid
    num_processes := num_processes
    state :=
      { temperature := 20 + r.rTemp
        pressure := 1013 + r.rPres
        wind_speed := 10 + r.rWind
        humidity := 60 + r.rHum
        computation_step := 0 }
    checkpoints := []
    sent_counter := []
    rcvd_counter := []
    is_failed := false
    status := "running"
    checkpoint_type := none
    messages_sent := 0
    messages_received := 0 }

/-- `Process.take_tentative_checkpoint`: marks the process as checkpointing
with a tentative pending kind and returns a snapshot checkpoint holding
copies of `state`, `sent_counter` and `rcvd_counter`; `ts` and `cid` are the
externally supplied `time.time()` timestamp and uuid-derived checkpoint id. -/
def Process.take_tentative_checkpoint (p : Process) (ts cid : Nat) :
    Process × Checkpoint :=
  ({ p with status := "checkpointing", checkpoint_type := some "tentative" },
   { pid := p.pid
     timestamp := ts
     state := p.state
     sent_counter := p.sent_counter
     rcvd_counter := p.rcvd_counter
     ctype := "tentative"
     checkpoint_id := cid })

/-- `Process.commit_checkpoint`: flips the checkpoint's type to permanent,
appends it to the history and records the permanent pending kind. -/
def Process.commit_checkpoint (p : Process) (ck : Checkpoint) : Process :=
  { p with
    checkpoints := p.checkpoints ++ [{ ck with ctype := "permanent" }]
    checkpoint_type := some "permanent" }

/-- `Process.abort_checkpoint`: back to running, no pending checkpoint. -/
def Process.abort_checkpoint (p : Process) : Process :=
  { p with status := "running", checkpoint_type := none }

/-- `Process.simulate_computation`: guarded by `if not self.is_failed`;
perturbs the four vars by the supplied deltas scaled by `intensity`,
increments `computation_step`, and bumps the aggregate message counters when
the respective coin flip succeeded. A failed process is left untouched. -/
def Process.simulate_computation (p : Process) (intensity : Rat) (nz : Noise) :
    Process :=
  if p.is_failed then p
  else
    { p with
      state :=
        { temperature := p.state.temperature + nz.dTemp * intensity
          pressure := p.state.pressure + nz.dPres * intensity
          wind_speed := p.state.wind_speed + nz.dWind * intensity
          humidity := p.state.humidity + nz.dHum * intensity
          computation_step := p.state.computation_step + 1 }
      messages_sent := p.messages_sent + (if nz.sendMsg then 1 else 0)
      messages_received := p.messages_received + (if nz.recvMsg then 1 else 0) }

/-- `Process.restore_from_checkpoint`: when the history is non-empty,
replaces `state`, `sent_counter` and `rcvd_counter` with the copies stored in
the most recent (last) history entry, clears `is_failed`, sets the status to
recovering, and returns the checkpoint id; otherwise it is a no-op returning
`none`. The history entry is not removed. -/
def Process.restore_from_checkpoint (p : Process) : Process × Option Nat :=
  match p.checkpoints.getLast? with
  | some last =>
      ({ p with
         state := last.state
         sent_counter := last.sent_counter
         rcvd_counter := last.rcvd_counter
         is_failed := false
         status := "recovering" }, some last.checkpoint_id)
  | none => (p, none)

/-- `Process.simulate_failure`: marks the process failed. -/
def Process.simulate_failure (p : Process) : Process :=
  { p with is_failed := true, status := "failed" }

/-- Structured protocol events, abstracting the `socketio.emit('log', ...)`
lines of the checkpoint protocol and the step loop (the spec's structured
phase-event surface; the human-readable text is presentation, out of scope). -/
inductive Event where
  | phase1Start
  | tentativeTaken (pid cid : Nat)
  | committing
  | committed (pid cid : Nat)
  | aborted
  | stepMark (n : Nat)
deriving DecidableEq

/-- The `SimulationController` class of `src/app.py`. -/
structure SimulationController where
  processes : List Process
  next_pid : Nat
  is_running : Bool
  is_paused : Bool
  auto_mode : Bool
  computation_speed : Rat
  checkpoint_frequency : Nat
  step_count : Nat
deriving DecidableEq

namespace SimulationController

/-- `SimulationController.__init__`. -/
def init : SimulationController :=
  { processes := []
    next_pid := 0
    is_running := false
    is_paused := false
    auto_mode := false
    computation_speed := 1
    checkpoint_frequency := 5
    step_count := 0 }

/-- `SimulationController.add_process`: appends a fresh `Process` carrying
`next_pid`, increments `next_pid`, and returns the new pid. -/
def add_process (c : SimulationController) (custom_name : Option String)
    (r : InitRand) : SimulationController × Nat :=
  let p := Process.init c.next_pid (c.processes.length + 1) custom_name r
  ({ c with processes := c.processes ++ [p], next_pid := c.next_pid + 1 }, p.pid)

/-- `SimulationController.remove_process`: filters out every process with the
given pid; silent no-op when absent. -/
def remove_process (c : SimulationController) (pid : Nat) : SimulationController :=
  { c with processes := c.processes.filter (fun p => p.pid != pid) }

/-- `SimulationController.get_process`: first process with the given pid. -/
def get_process (c : SimulationController) (pid : Nat) : Option Process :=
  c.processes.find? (fun p => p.pid == pid)

/-- Functional update of the first process carrying the given pid, modelling
Python's in-place mutation of the object returned by `get_process`. -/
def updateFirst (pid : Nat) (f : Process → Process) : List Process → List Process
  | [] => []
  | p :: rest => if p.pid == pid then f p :: rest else p :: updateFirst pid f rest

/-- The `handle_trigger_failure` socket handler: if the pid names an existing
non-failed process, that process's `simulate_failure` runs; otherwise no-op. -/
def trigger_failure (c : SimulationController) (pid : Nat) : SimulationController :=
  match c.get_process pid with
  | some p =>
      if p.is_failed then c
      else { c with processes := updateFirst pid Process.simulate_failure c.processes }
  | none => c

/-- Phase 1 of `initiate_checkpoint`: walk the process list in order; every
non-failed process takes a tentative checkpoint (mutating its own status and
pending kind) and its (process, checkpoint) pair is collected; failed
processes are skipped. Positions with `none` are the skipped processes. -/
def phase1 (gen : Nat → Nat × Nat) (ps : List Process) :
    List (Process × Option Checkpoint) :=
  ps.map (fun p =>
    if p.is_failed then (p, none)
    else
      let m := gen p.pid
      let r := p.take_tentative_checkpoint m.1 m.2
      (r.1, some r.2))

/-- `SimulationController.initiate_checkpoint`: phase 1 collects tentative
checkpoints from every non-failed process; the decision compares the number
collected against the number of currently non-failed processes; on success
every collected pair is committed, otherwise every collected pair is aborted;
finally every non-failed process is reset to running with no pending kind.
Returns the updated controller, the `all_success` boolean, and the emitted
events. -/
def initiate_checkpoint (c : SimulationController) (gen : Nat → Nat × Nat) :
    SimulationController × Bool × List Event :=
  let pairs := phase1 gen c.processes
  let collected := pairs.filterMap Prod.snd
  let ps1 := pairs.map Prod.fst
  let all_success := collected.length == (ps1.filter (fun p => !p.is_failed)).length
  let ps2 :=
    if all_success then
      pairs.map (fun pc =>
        match pc.2 with
        | some ck => pc.1.commit_checkpoint ck
        | none => pc.1)
    else
      pairs.map (fun pc =>
        match pc.2 with
        | some _ => pc.1.abort_checkpoint
        | none => pc.1)
  let ps3 := ps2.map (fun p =>
    if p.is_failed then p
    else { p with status := "running", checkpoint_type := none })
  let events :=
    Event.phase1Start ::
      (collected.map (fun ck => Event.tentativeTaken ck.pid ck.checkpoint_id) ++
        (if all_success then
          Event.committing ::
            collected.map (fun ck => Event.committed ck.pid ck.checkpoint_id)
        else [Event.aborted]))
  ({ c with processes := ps3 }, all_success, events)

/-- `SimulationController.initiate_recovery`: no-op when the pid names no
process; otherwise clears `is_failed` on the named process (first match),
calls `restore_from_checkpoint` on every process in the collection, and then
sets every process's status to running. -/
def initiate_recovery (c : SimulationController) (failed_pid : Nat) :
    SimulationController :=
  match c.get_process failed_pid with
  | none => c
  | some _ =>
      let ps1 := updateFirst failed_pid (fun p => { p with is_failed := false })
        c.processes
      let ps2 := ps1.map (fun p => p.restore_from_checkpoint.1)
      let ps3 := ps2.map (fun p => { p with status := "running" })
      { c with processes := ps3 }

/-- `SimulationController.step_computation`: increments the global step
counter, advances every process with the configured speed (per-process noise
supplied by `noise`), and, when auto mode is on and the new step count is a
multiple of the checkpoint frequency, runs `initiate_checkpoint`. Returns the
updated controller and the emitted events. -/
def step_computation (c : SimulationController) (noise : Nat → Noise)
    (gen : Nat → Nat × Nat) : SimulationController × List Event :=
  let c1 := { c with step_count := c.step_count + 1 }
  let c2 := { c1 with
    processes := c1.processes.map
      (fun p => p.simulate_computation c.computation_speed (noise p.pid)) }
  if c2.auto_mode && (c2.step_count % c2.checkpoint_frequency == 0) then
    let r := c2.initiate_checkpoint gen
    (r.1, Event.stepMark c1.step_count :: r.2.2)
  else
    (c2, [Event.stepMark c1.step_count])

end SimulationController

/-- Iterated `simulate_computation`: one advance per (intensity, noise) pair. -/
def advanceMany (l : List (Rat × Noise)) (p : Process) : Process :=
  l.foldl (fun q a => q.simulate_computation a.1 a.2) p

/-- Engine-level commands for pid-allocation runs: add a process (with its
drawn initial randomness) or remove one. -/
inductive Op where
  | addP (name : Option String) (r : InitRand)
  | removeP (pid : Nat)

/-- Run a sequence of add/remove commands from a controller, collecting the
pids returned by each `add_process` in order. -/
def runOps : List Op → SimulationController → SimulationController × List Nat
  | [], c => (c, [])
  | Op.addP n r :: rest, c =>
      let a := c.add_process n r
      let t := runOps rest a.1
      (t.1, a.2 :: t.2)
  | Op.removeP pid :: rest, c => runOps rest (c.remove_process pid)

/-- The consistency invariant relating the failure flag and the status text:
a failed process always reads status failed. -/
def FailedStatusInv (c : SimulationController) : Prop :=
  ∀ p ∈ c.processes, p.is_failed = true → p.status = "failed"

instance (c : SimulationController) : Decidable (FailedStatusInv c) :=
  List.decidableBAll _ c.processes

/-- The tentative checkpoint a process produces in phase 1. -/
def tentOf (gen : Nat → Nat × Nat) (p : Process) : Checkpoint :=
  { pid := p.pid
    timestamp := (gen p.pid).1
    state := p.state
    sent_counter := p.sent_counter
    rcvd_counter := p.rcvd_counter
    ctype := "tentative"
    checkpoint_id := (gen p.pid).2 }

/-- The net effect of one full checkpoint protocol run on a single process:
failed processes are untouched; every other process gains one permanent
checkpoint snapshotting its current state and ends running with no pending
kind. -/
def ckptOutcome (gen : Nat → Nat × Nat) (p : Process) : Process :=
  if p.is_failed then p
  else
    { p with
      checkpoints := p.checkpoints ++ [{ tentOf gen p with ctype := "permanent" }]
      status := "running"
      checkpoint_type := none }

/-- `failed_process.is_failed = False`: the single field write performed on
the named process at the start of recovery. -/
def clearFail (p : Process) : Process := { p with is_failed := false }

/-- The net per-process effect of the recovery protocol's loops: restore from
the latest checkpoint (no-op when the history is empty) and then set the
status to running. -/
def recoverOne (p : Process) : Process :=
  { p.restore_from_checkpoint.1 with status := "running" }

/-! Concrete states used to witness and refute claims. -/

/-- A zero-valued process state. -/
def zeroState : PState :=
  { temperature := 0, pressure := 0, wind_speed := 0, humidity := 0
    computation_step := 0 }

/-- Zero noise with no message coin flips. -/
def noNoise : Noise :=
  { dTemp := 0, dPres := 0, dWind := 0, dHum := 0, sendMsg := false
    recvMsg := false }

/-- Zero initial randomness. -/
def zeroRand : InitRand := { rTemp := 0, rPres := 0, rWind := 0, rHum := 0 }

/-- A committed checkpoint of process 0 snapshotting `zeroState`. -/
def ckA : Checkpoint :=
  { pid := 0, timestamp := 0, state := zeroState, sent_counter := []
    rcvd_counter := [], ctype := "permanent", checkpoint_id := 7 }

/-- A non-failed running process whose current temperature has drifted away
from its single committed checkpoint `ckA`. -/
def pA : Process :=
  { pid := 0, custom_name := "Node-0", num_processes := 1
    state := { zeroState with temperature := 1, computation_step := 3 }
    checkpoints := [ckA], sent_counter := [], rcvd_counter := []
    is_failed := false, status := "running", checkpoint_type := none
    messages_sent := 0, messages_received := 0 }

/-- A controller holding only `pA`. -/
def cA : SimulationController :=
  { processes := [pA], next_pid := 1, is_running := false, is_paused := false
    auto_mode := false, computation_speed := 1, checkpoint_frequency := 5
    step_count := 0 }

/-- A failed process with one committed checkpoint. -/
def pB0 : Process :=
  { pA with is_failed := true, status := "failed" }

/-- A failed process with an empty checkpoint history. -/
def pB1 : Process :=
  { pid := 1, custom_name := "Node-1", num_processes := 2, state := zeroState
    checkpoints := [], sent_counter := [], rcvd_counter := []
    is_failed := true, status := "failed", checkpoint_type := none
    messages_sent := 0, messages_received := 0 }

/-- A controller in which both processes are failed and only process 0 has a
checkpoint to roll back to; it satisfies `FailedStatusInv`. -/
def cB : SimulationController :=
  { cA with processes := [pB0, pB1], next_pid := 2 }

/-- A controller one step short of an automatic checkpoint: auto mode on,
frequency 5, step counter 4. -/
def cC : SimulationController :=
  { cA with auto_mode := true, step_count := 4 }

/-- The constant zero noise source. -/
def noiseZ : Nat → Noise := fun _ => noNoise

/-- A constant timestamp/checkpoint-id generator. -/
def genZ : Nat → Nat × Nat := fun _ => (0, 0)

namespace SimulationController

lemma collected_len (gen : Nat → Nat × Nat) (ps : List Process) :
    ((phase1 gen ps).filterMap Prod.snd).length =
      (((phase1 gen ps).map Prod.fst).filter (fun p => !p.is_failed)).length := by
  induction ps with
  | nil => rfl
  | cons p ps ih =>
    by_cases h : p.is_failed
    · simp [phase1, h, Process.take_tentative_checkpoint] at ih ⊢
      exact ih
    · simp [phase1, h, Process.take_tentative_checkpoint] at ih ⊢
      exact ih

lemma initiate_checkpoint_success (c : SimulationController) (gen : Nat → Nat × Nat) :
    (c.initiate_checkpoint gen).2.1 = true := by
  simp only [initiate_checkpoint]
  exact beq_iff_eq.mpr (collected_len gen c.processes)

lemma initiate_checkpoint_processes (c : SimulationController) (gen : Nat → Nat × Nat) :
    (c.initiate_checkpoint gen).1.processes = c.processes.map (ckptOutcome gen) := by
  simp only [initiate_checkpoint]
  rw [beq_iff_eq.mpr (collected_len gen c.processes)]
  simp only [if_true, phase1, List.map_map]
  induction c.processes with
  | nil => rfl
  | cons p ps ih =>
    by_cases h : p.is_failed
    · simp [h, ckptOutcome, Function.comp, Process.take_tentative_checkpoint] at ih ⊢
      exact ih
    · simp [h, ckptOutcome, Function.comp, Process.take_tentative_checkpoint,
        Process.commit_checkpoint, tentOf] at ih ⊢
      exact ih

lemma initiate_recovery_processes (c : SimulationController) (pid : Nat)
    (p : Process) (h : c.get_process pid = some p) :
    (c.initiate_recovery pid).processes =
      (updateFirst pid clearFail c.processes).map recoverOne := by
  simp only [initiate_recovery, h, clearFail, recoverOne, List.map_map]
  rfl

lemma updateFirst_map (pid : Nat) (f : Process → Process)
    {β : Type} (g : Process → β) (hg : ∀ p, g (f p) = g p) :
    ∀ ps : List Process, (updateFirst pid f ps).map g = ps.map g := by
  intro ps
  induction ps with
  | nil => rfl
  | cons p ps ih =>
    by_cases h : p.pid = pid
    · simp [updateFirst, h, hg]
    · simp [updateFirst, h, ih]

lemma mem_updateFirst {pid : Nat} {f : Process → Process} {ps : List Process}
    {q : Process} (h : q ∈ updateFirst pid f ps) :
    q ∈ ps ∨ ∃ p ∈ ps, q = f p := by
  induction ps with
  | nil => simp [updateFirst] at h
  | cons p ps ih =>
    by_cases hp : p.pid = pid
    · simp [updateFirst, hp] at h
      rcases h with h | h
      · exact Or.inr ⟨p, by simp, h⟩
      · exact Or.inl (List.mem_cons_of_mem _ h)
    · simp [updateFirst, hp] at h
      rcases h with h | h
      · exact Or.inl (by simp [h])
      · rcases ih h with h1 | ⟨p1, hp1, hq⟩
        · exact Or.inl (List.mem_cons_of_mem _ h1)
        · exact Or.inr ⟨p1, List.mem_cons_of_mem _ hp1, hq⟩

lemma recoverOne_checkpoints (p : Process) :
    (recoverOne p).checkpoints = p.checkpoints := by
  simp only [recoverOne, Process.restore_from_checkpoint]
  cases h : p.checkpoints.getLast? <;> rfl

lemma recoverOne_status (p : Process) : (recoverOne p).status = "running" := rfl

lemma recoverOne_is_failed (p : Process) (h : p.checkpoints ≠ []) :
    (recoverOne p).is_failed = false := by
  cases hck : p.checkpoints.getLast? with
  | none => exact absurd (List.getLast?_eq_none_iff.mp hck) h
  | some ck => simp [recoverOne, Process.restore_from_checkpoint, hck]

lemma initiate_checkpoint_count_phase1Start (c : SimulationController)
    (gen : Nat → Nat × Nat) :
    ((c.initiate_checkpoint gen).2.2).count Event.phase1Start = 1 := by
  simp only [initiate_checkpoint]
  rw [beq_iff_eq.mpr (collected_len gen c.processes)]
  simp only [if_true, List.count_cons_self]
  rw [List.count_append, List.count_eq_zero.mpr, List.count_cons,
      List.count_eq_zero.mpr] <;> simp

lemma step_computation_step_count (c : SimulationController) (noise : Nat → Noise)
    (gen : Nat → Nat × Nat) :
    (c.step_computation noise gen).1.step_count = c.step_count + 1 := by
  simp only [step_computation, initiate_checkpoint]
  split <;> rfl

lemma step_computation_count_phase1Start (c : SimulationController)
    (noise : Nat → Noise) (gen : Nat → Nat × Nat) :
    ((c.step_computation noise gen).2).count Event.phase1Start =
      if c.auto_mode && ((c.step_count + 1) % c.checkpoint_frequency == 0)
      then 1 else 0 := by
  simp only [step_computation]
  split
  · simp [List.count_cons, initiate_checkpoint_count_phase1Start]
  · simp

/-- Per-position history growth of one protocol run: non-failed processes
gain exactly one committed checkpoint, failed processes keep their history. -/
lemma histories_after_checkpoint (c : SimulationController) (gen : Nat → Nat × Nat) :
    (c.initiate_checkpoint gen).1.processes.map (fun p => p.checkpoints.length) =
      c.processes.map (fun p =>
        if p.is_failed then p.checkpoints.length else p.checkpoints.length + 1) := by
  rw [initiate_checkpoint_processes, List.map_map]
  induction c.processes with
  | nil => rfl
  | cons p ps ih =>
    by_cases h : p.is_failed
    · simp only [List.map_cons, Function.comp, ckptOutcome, h, if_true, ih]
    · simp only [List.map_cons, Function.comp, ckptOutcome, h] at ih ⊢
      simp [ih]

/-- Phase 1 does not change which processes are failed. -/
lemma filter_phase1_fst (gen : Nat → Nat × Nat) (ps : List Process) :
    (((phase1 gen ps).map Prod.fst).filter (fun p => !p.is_failed)).length =
      (ps.filter (fun p => !p.is_failed)).length := by
  induction ps with
  | nil => rfl
  | cons p ps ih =>
    by_cases h : p.is_failed
    · simp [phase1, h, Process.take_tentative_checkpoint] at ih ⊢
      exact ih
    · simp [phase1, h, Process.take_tentative_checkpoint] at ih ⊢
      exact ih

lemma recoverOne_is_failed_empty (q : Process) (h : q.checkpoints = []) :
    (recoverOne q).is_failed = q.is_failed := by
  simp [recoverOne, Process.restore_from_checkpoint, h]

/-- Fields of the process produced by a successful restore. -/
lemma restore_fields (p : Process) (ck : Checkpoint)
    (h : p.checkpoints.getLast? = some ck) :
    p.restore_from_checkpoint.1.state = ck.state ∧
      p.restore_from_checkpoint.1.sent_counter = ck.sent_counter ∧
      p.restore_from_checkpoint.1.rcvd_counter = ck.rcvd_counter ∧
      p.restore_from_checkpoint.1.is_failed = false ∧
      p.restore_from_checkpoint.1.checkpoints = p.checkpoints := by
  simp [Process.restore_from_checkpoint, h]

/-- `updateFirst` relates input and output pointwise: every output process is
the corresponding input process, possibly passed through `f`. -/
lemma updateFirst_forall2 (pid : Nat) (f : Process → Process) :
    ∀ ps : List Process,
      List.Forall₂ (fun p q => q = p ∨ q = f p) ps (updateFirst pid f ps) := by
  intro ps
  induction ps with
  | nil => exact List.Forall₂.nil
  | cons p ps ih =>
    by_cases h : p.pid = pid
    · simp only [updateFirst, h, beq_self_eq_true, if_true]
      exact List.Forall₂.cons (Or.inr rfl)
        (List.forall₂_same.mpr (fun a _ => Or.inl rfl))
    · have hb : (p.pid == pid) = false := by simp [h]
      simp only [updateFirst, hb, Bool.false_eq_true, if_false]
      exact List.Forall₂.cons (Or.inl rfl) ih

/-- What recovery guarantees for one process, given that `q` is `p0` with at
most the failure flag cleared. -/
lemma recoverOne_rel (p0 q : Process) (hq : q.checkpoints = p0.checkpoints) :
    (recoverOne q).status = "running" ∧
      (recoverOne q).checkpoints = p0.checkpoints ∧
      (p0.checkpoints ≠ [] →
        (recoverOne q).is_failed = false ∧
        ∃ ck, p0.checkpoints.getLast? = some ck ∧
          (recoverOne q).state = ck.state ∧
          (recoverOne q).sent_counter = ck.sent_counter ∧
          (recoverOne q).rcvd_counter = ck.rcvd_counter) := by
  refine ⟨recoverOne_status q, (recoverOne_checkpoints q).trans hq, fun hne => ?_⟩
  cases hck : p0.checkpoints.getLast? with
  | none => exact absurd (List.getLast?_eq_none_iff.mp hck) hne
  | some ck =>
      have hq2 : q.checkpoints.getLast? = some ck := by rw [hq, hck]
      refine ⟨recoverOne_is_failed q (by rw [hq]; exact hne), ck, rfl, ?_, ?_, ?_⟩ <;>
        simp [recoverOne, Process.restore_from_checkpoint, hq2]

/-- `simulate_computation` never changes the failure flag or the status. -/
lemma simulate_computation_is_failed (p : Process) (i : Rat) (nz : Noise) :
    (p.simulate_computation i nz).is_failed = p.is_failed ∧
      (p.simulate_computation i nz).status = p.status := by
  by_cases h : p.is_failed <;> simp [Process.simulate_computation, h]

/-- One protocol run never changes the failure flag, and only gives a failed
process the status it already had. -/
lemma ckptOutcome_is_failed (gen : Nat → Nat × Nat) (p : Process) :
    (ckptOutcome gen p).is_failed = p.is_failed ∧
      (p.is_failed = true → (ckptOutcome gen p).status = p.status) := by
  by_cases h : p.is_failed <;> simp [ckptOutcome, h]

/-- One protocol run never changes a process's application state (vars and
computation step): only histories, statuses and pending kinds move. -/
lemma ckptOutcome_state (gen : Nat → Nat × Nat) (p : Process) :
    (ckptOutcome gen p).state = p.state := by
  by_cases h : p.is_failed <;> simp [ckptOutcome, h]

/-- `step_computation` advances every process exactly once: afterwards every
process's state equals its state after one `simulate_computation` with the
configured speed and its own noise (the optional checkpoint run does not
alter states). -/
lemma step_computation_advances (c : SimulationController) (noise : Nat → Noise)
    (gen : Nat → Nat × Nat) :
    (c.step_computation noise gen).1.processes.map (fun p => p.state) =
      c.processes.map (fun p =>
        (p.simulate_computation c.computation_speed (noise p.pid)).state) := by
  simp only [step_computation]
  split
  · rw [initiate_checkpoint_processes, List.map_map, List.map_map]
    exact List.map_congr_left
      (fun p _ => by simp [Function.comp, ckptOutcome_state])
  · rw [List.map_map]
    rfl

/-- The invariant is preserved by a whole checkpoint protocol run. -/
lemma inv_initiate_checkpoint (c : SimulationController) (gen : Nat → Nat × Nat)
    (h : FailedStatusInv c) : FailedStatusInv (c.initiate_checkpoint gen).1 := by
  intro q hq hfail
  rw [initiate_checkpoint_processes] at hq
  rcases List.mem_map.mp hq with ⟨p, hp, rfl⟩
  have h1 := ckptOutcome_is_failed gen p
  rw [h1.1] at hfail
  rw [h1.2 hfail]
  exact h p hp hfail

lemma inv_add (c : SimulationController) (n : Option String) (r : InitRand)
    (h : FailedStatusInv c) : FailedStatusInv (c.add_process n r).1 := by
  intro q hq hfail
  simp only [add_process] at hq
  rcases List.mem_append.mp hq with hq | hq
  · exact h q hq hfail
  · simp only [List.mem_singleton] at hq
    subst hq
    simp [Process.init] at hfail

lemma inv_remove (c : SimulationController) (pid : Nat)
    (h : FailedStatusInv c) : FailedStatusInv (c.remove_process pid) := by
  intro q hq hfail
  exact h q (List.mem_of_mem_filter hq) hfail

lemma inv_trigger_failure (c : SimulationController) (pid : Nat)
    (h : FailedStatusInv c) : FailedStatusInv (c.trigger_failure pid) := by
  intro q hq hfail
  cases hg : c.get_process pid with
  | none =>
      simp only [trigger_failure, hg] at hq
      exact h q hq hfail
  | some p0 =>
      simp only [trigger_failure, hg] at hq
      by_cases hf : p0.is_failed
      · rw [if_pos hf] at hq
        exact h q hq hfail
      · rw [if_neg hf] at hq
        rcases mem_updateFirst hq with hmem | ⟨p1, hp1, rfl⟩
        · exact h q hmem hfail
        · rfl

lemma inv_advanced (c : SimulationController) (noise : Nat → Noise)
    (h : FailedStatusInv c) :
    ∀ q ∈ c.processes.map
        (fun p => p.simulate_computation c.computation_speed (noise p.pid)),
      q.is_failed = true → q.status = "failed" := by
  intro q hq hfail
  rcases List.mem_map.mp hq with ⟨p, hp, rfl⟩
  have h2 := simulate_computation_is_failed p c.computation_speed (noise p.pid)
  rw [h2.1] at hfail
  rw [h2.2]
  exact h p hp hfail

lemma inv_step (c : SimulationController) (noise : Nat → Noise)
    (gen : Nat → Nat × Nat) (h : FailedStatusInv c) :
    FailedStatusInv (c.step_computation noise gen).1 := by
  simp only [step_computation]
  split
  · exact inv_initiate_checkpoint _ gen (fun q hq => inv_advanced c noise h q hq)
  · exact fun q hq => inv_advanced c noise h q hq

lemma inv_recovery (c : SimulationController) (pid : Nat)
    (h : FailedStatusInv c)
    (hh : ∀ p ∈ c.processes, p.is_failed = true → p.checkpoints ≠ []) :
    FailedStatusInv (c.initiate_recovery pid) := by
  intro q hq hfail
  cases hg : c.get_process pid with
  | none =>
      simp only [initiate_recovery, hg] at hq
      exact h q hq hfail
  | some p0 =>
      rw [initiate_recovery_processes c pid p0 hg] at hq
      rcases List.mem_map.mp hq with ⟨q0, hq0, rfl⟩
      exfalso
      rcases mem_updateFirst hq0 with hmem | ⟨p1, hp1, rfl⟩
      · by_cases he : q0.checkpoints = []
        · rw [recoverOne_is_failed_empty q0 he] at hfail
          exact absurd he (hh q0 hmem hfail)
        · rw [recoverOne_is_failed q0 he] at hfail
          cases hfail
      · by_cases he : (clearFail p1).checkpoints = []
        · rw [recoverOne_is_failed_empty _ he] at hfail
          simp [clearFail] at hfail
        · rw [recoverOne_is_failed _ he] at hfail
          cases hfail

end SimulationController

/-- Pid-allocation invariant carried through any command sequence: every live
pid is below `next_pid`, `next_pid` never decreases, returned pids sit
between the starting and final `next_pid`, the returned pids are strictly
increasing, and the live pids stay pairwise distinct. -/
lemma runOps_spec (ops : List Op) :
    ∀ c : SimulationController,
      (∀ p ∈ c.processes, p.pid < c.next_pid) →
      ((c.processes.map (fun p => p.pid)).Nodup) →
      (∀ p ∈ (runOps ops c).1.processes, p.pid < (runOps ops c).1.next_pid) ∧
      c.next_pid ≤ (runOps ops c).1.next_pid ∧
      (∀ x ∈ (runOps ops c).2, c.next_pid ≤ x ∧ x < (runOps ops c).1.next_pid) ∧
      (runOps ops c).2.Pairwise (fun a b => a < b) ∧
      ((runOps ops c).1.processes.map (fun p => p.pid)).Nodup := by
  induction ops with
  | nil =>
      intro c h1 h2
      exact ⟨h1, le_refl _, by simp [runOps], by simp [runOps], h2⟩
  | cons op rest ih =>
      cases op with
      | addP n r =>
          intro c h1 h2
          have h1a : ∀ p ∈ (c.add_process n r).1.processes,
              p.pid < (c.add_process n r).1.next_pid := by
            intro p hp
            simp only [SimulationController.add_process] at hp ⊢
            rcases List.mem_append.mp hp with hp | hp
            · exact Nat.lt_succ_of_lt (h1 p hp)
            · simp only [List.mem_singleton] at hp
              subst hp
              exact Nat.lt_succ_self _
          have h2a : ((c.add_process n r).1.processes.map (fun p => p.pid)).Nodup := by
            simp only [SimulationController.add_process, List.map_append,
              List.map_cons, List.map_nil]
            rw [List.nodup_append]
            refine ⟨h2, List.nodup_singleton _, ?_⟩
            intro x hx hx2
            simp only [Process.init, List.mem_singleton] at hx2
            rcases List.mem_map.mp hx with ⟨p, hp, rfl⟩
            exact absurd hx2 (Nat.ne_of_lt (h1 p hp))
          obtain ⟨g1, g2, g3, g4, g5⟩ := ih (c.add_process n r).1 h1a h2a
          have hnp : (c.add_process n r).1.next_pid = c.next_pid + 1 := rfl
          have hret : (c.add_process n r).2 = c.next_pid := rfl
          rw [hnp] at g2
          refine ⟨g1, ?_, ?_, ?_, g5⟩
          · show c.next_pid ≤ (runOps rest (c.add_process n r).1).1.next_pid
            omega
          · intro x hx
            simp only [runOps, List.mem_cons] at hx
            show c.next_pid ≤ x ∧ x < (runOps rest (c.add_process n r).1).1.next_pid
            rcases hx with rfl | hx
            · rw [hret]
              omega
            · rcases g3 x hx with ⟨ga, gb⟩
              rw [hnp] at ga
              exact ⟨by omega, gb⟩
          · show List.Pairwise _
              ((c.add_process n r).2 :: (runOps rest (c.add_process n r).1).2)
            rw [List.pairwise_cons]
            refine ⟨fun x hx => ?_, g4⟩
            rcases g3 x hx with ⟨ga, _⟩
            rw [hnp] at ga
            rw [hret]
            omega
      | removeP pid =>
          intro c h1 h2
          have h1a : ∀ p ∈ (c.remove_process pid).processes,
              p.pid < (c.remove_process pid).next_pid := by
            intro p hp
            exact h1 p (List.mem_of_mem_filter hp)
          have h2a : ((c.remove_process pid).processes.map (fun p => p.pid)).Nodup :=
            List.Nodup.sublist (List.Sublist.map _ (List.filter_sublist _)) h2
          obtain ⟨g1, g2, g3, g4, g5⟩ := ih (c.remove_process pid) h1a h2a
          exact ⟨g1, g2, g3, g4, g5⟩

/-! ## Claim theorems -/

/-- C1: In a single run of `initiate_checkpoint`, the history of every
participant (every process that is non-failed when its phase-1 turn comes)
grows by exactly one — the Commit path — while every failed process's
history stays put; in particular no run leaves some participants' histories
grown and others' not. -/
theorem C1_checkpoint_all_or_nothing (c : SimulationController)
    (gen : Nat → Nat × Nat) :
    (c.initiate_checkpoint gen).1.processes.map (fun p => p.checkpoints.length) =
      c.processes.map (fun p =>
        if p.is_failed then p.checkpoints.length else p.checkpoints.length + 1) :=
  SimulationController.histories_after_checkpoint c gen

/-- C9: in the sequential (non-interleaved) embedding no failure can occur
between phase 1 and the decision, so the Abort branch of
`initiate_checkpoint` is unreachable and the run always returns true. -/
theorem C9_abort_unreachable (c : SimulationController) (gen : Nat → Nat × Nat) :
    (c.initiate_checkpoint gen).2.1 = true :=
  SimulationController.initiate_checkpoint_success c gen

/-- C6: `initiate_checkpoint` returns true iff the number of tentative
checkpoints collected in phase 1 equals the size of the participation set
(the non-failed processes) recorded at the start of the run, and true is
returned exactly when the Commit path — history growth on every collected
pair — is taken. -/
theorem C6_result_characterization (c : SimulationController)
    (gen : Nat → Nat × Nat) :
    ((c.initiate_checkpoint gen).2.1 = true ↔
      ((SimulationController.phase1 gen c.processes).filterMap Prod.snd).length =
        (c.processes.filter (fun p => !p.is_failed)).length) ∧
    ((c.initiate_checkpoint gen).2.1 = true ↔
      (c.initiate_checkpoint gen).1.processes.map (fun p => p.checkpoints.length) =
        c.processes.map (fun p =>
          if p.is_failed then p.checkpoints.length
          else p.checkpoints.length + 1)) :=
  ⟨iff_of_true (SimulationController.initiate_checkpoint_success c gen)
      ((SimulationController.collected_len gen c.processes).trans
        (SimulationController.filter_phase1_fst gen c.processes)),
   iff_of_true (SimulationController.initiate_checkpoint_success c gen)
      (SimulationController.histories_after_checkpoint c gen)⟩

/-- C5: once `simulate_failure` has run, any sequence of
`simulate_computation` calls — with any intensities and any noise — leaves
the process unchanged: vars, computation step and message counters are all
frozen. -/
theorem C5_failure_freezes (p : Process) (l : List (Rat × Noise)) :
    advanceMany l p.simulate_failure = p.simulate_failure := by
  induction l with
  | nil => rfl
  | cons a l ih =>
      have h1 : (p.simulate_failure).simulate_computation a.1 a.2 =
          p.simulate_failure := by
        simp [Process.simulate_computation, Process.simulate_failure]
      simpa [advanceMany, List.foldl_cons, h1] using ih

/-- C4: for a process with non-empty history, `restore_from_checkpoint`
makes its state and its two message-counter maps equal, field for field, to
the most recent history entry, keeps the entry in the history, and a second
restore reproduces the very same process. -/
theorem C4_restore_exact_last (p : Process) (ck : Checkpoint)
    (h : p.checkpoints.getLast? = some ck) :
    p.restore_from_checkpoint.1.state = ck.state ∧
    p.restore_from_checkpoint.1.sent_counter = ck.sent_counter ∧
    p.restore_from_checkpoint.1.rcvd_counter = ck.rcvd_counter ∧
    p.restore_from_checkpoint.1.checkpoints = p.checkpoints ∧
    p.restore_from_checkpoint.1.restore_from_checkpoint.1 =
      p.restore_from_checkpoint.1 := by
  obtain ⟨h1, h2, h3, _, h5⟩ := SimulationController.restore_fields p ck h
  refine ⟨h1, h2, h3, h5, ?_⟩
  simp [Process.restore_from_checkpoint, h]

/-- C4 witness: the theorem applied to the concrete process `pA`, whose
single history entry is `ckA`. -/
theorem C4_witness :
    pA.checkpoints.getLast? = some ckA ∧
    (pA.restore_from_checkpoint.1.state = ckA.state ∧
     pA.restore_from_checkpoint.1.sent_counter = ckA.sent_counter ∧
     pA.restore_from_checkpoint.1.rcvd_counter = ckA.rcvd_counter ∧
     pA.restore_from_checkpoint.1.checkpoints = pA.checkpoints ∧
     pA.restore_from_checkpoint.1.restore_from_checkpoint.1 =
       pA.restore_from_checkpoint.1) :=
  ⟨rfl, C4_restore_exact_last pA ckA rfl⟩

/-- C10: recovery on an existing pid leaves every history unchanged and
clears `is_failed` on every process with a non-empty history — not only on
the named process — because `restore_from_checkpoint` runs on the whole
collection. -/
theorem C10_recovery_clears_all_with_history (c : SimulationController)
    (pid : Nat) (p : Process) (h : c.get_process pid = some p) :
    ((c.initiate_recovery pid).processes.map (fun q => q.checkpoints) =
      c.processes.map (fun q => q.checkpoints)) ∧
    ∀ q ∈ (c.initiate_recovery pid).processes,
      q.checkpoints ≠ [] → q.is_failed = false := by
  rw [SimulationController.initiate_recovery_processes c pid p h]
  constructor
  · rw [List.map_map]
    have h2 : ((SimulationController.updateFirst pid clearFail c.processes).map
        ((fun q => q.checkpoints) ∘ recoverOne)) =
        ((SimulationController.updateFirst pid clearFail c.processes).map
          (fun q => q.checkpoints)) :=
      List.map_congr_left
        (fun q _ => SimulationController.recoverOne_checkpoints q)
    rw [h2]
    exact SimulationController.updateFirst_map pid clearFail
      (fun q => q.checkpoints) (fun q => rfl) c.processes
  · intro q hq hne
    rcases List.mem_map.mp hq with ⟨q0, hq0, rfl⟩
    exact SimulationController.recoverOne_is_failed q0
      (by rwa [SimulationController.recoverOne_checkpoints] at hne)

/-- C10 witness: the theorem applied to `cB`, whose process 0 exists. -/
theorem C10_witness :
    cB.get_process 0 = some pB0 ∧
    (((cB.initiate_recovery 0).processes.map (fun q => q.checkpoints) =
        cB.processes.map (fun q => q.checkpoints)) ∧
      ∀ q ∈ (cB.initiate_recovery 0).processes,
        q.checkpoints ≠ [] → q.is_failed = false) :=
  ⟨rfl, C10_recovery_clears_all_with_history cB 0 pB0 rfl⟩

/-- C2 counterexample: in `cA` process 0 exists and no process is failed,
yet `initiate_recovery 0` is not a no-op — process 0's temperature reverts
to the checkpointed value, so its vars change. -/
theorem C2_cex_recovery_not_noop :
    (cA.get_process 0).isSome = true ∧
    cA.processes.all (fun p => !p.is_failed) = true ∧
    (cA.initiate_recovery 0).processes.map (fun p => p.state.temperature) ≠
      cA.processes.map (fun p => p.state.temperature) := by
  decide

/-- C2 (amended): `initiate_recovery` on an existing pid is not guarded by
the `isFailed` flag: even when the named process is not failed it performs
the full global rollback — afterwards every process has status running and
an unchanged history, and every process with a non-empty history has been
restored to its latest checkpoint with `is_failed` cleared. The call is a
no-op only when the pid names no process. -/
theorem C2_recovery_on_nonfailed_rolls_back (c : SimulationController)
    (pid : Nat) (p : Process) (h : c.get_process pid = some p)
    (_hnf : p.is_failed = false) :
    List.Forall₂
      (fun p0 q =>
        q.status = "running" ∧ q.checkpoints = p0.checkpoints ∧
          (p0.checkpoints ≠ [] →
            q.is_failed = false ∧
            ∃ ck, p0.checkpoints.getLast? = some ck ∧
              q.state = ck.state ∧ q.sent_counter = ck.sent_counter ∧
                q.rcvd_counter = ck.rcvd_counter))
      c.processes (c.initiate_recovery pid).processes := by
  rw [SimulationController.initiate_recovery_processes c pid p h]
  rw [List.forall₂_map_right_iff]
  refine (SimulationController.updateFirst_forall2 pid clearFail c.processes).imp
    ?_
  intro p0 q hq
  rcases hq with h1 | h1
  · rw [h1]
    exact SimulationController.recoverOne_rel p0 p0 rfl
  · rw [h1]
    exact SimulationController.recoverOne_rel p0 (clearFail p0) rfl

/-- C2 witness: the amended theorem applied to `cA` and its non-failed
process 0. -/
theorem C2_witness :
    cA.get_process 0 = some pA ∧ pA.is_failed = false ∧
    List.Forall₂
      (fun p0 q =>
        q.status = "running" ∧ q.checkpoints = p0.checkpoints ∧
          (p0.checkpoints ≠ [] →
            q.is_failed = false ∧
            ∃ ck, p0.checkpoints.getLast? = some ck ∧
              q.state = ck.state ∧ q.sent_counter = ck.sent_counter ∧
                q.rcvd_counter = ck.rcvd_counter))
      cA.processes (cA.initiate_recovery 0).processes :=
  ⟨rfl, rfl, C2_recovery_on_nonfailed_rolls_back cA 0 pA rfl rfl⟩

/-- C3 counterexample: `cB` satisfies the failed-implies-status-failed
invariant (both processes are failed with status failed), but after
`initiate_recovery 0` the invariant is broken: process 1 has no checkpoint,
so its `is_failed` stays true while the recovery finale sets its status to
running. -/
theorem C3_cex_inv_broken :
    FailedStatusInv cB ∧ ¬ FailedStatusInv (cB.initiate_recovery 0) := by
  decide

/-- C3 (amended): the invariant `is_failed = true → status = "failed"` is
preserved by `add_process`, `remove_process`, the failure trigger,
`step_computation` and `initiate_checkpoint`; `initiate_recovery` preserves
it provided every failed process has a non-empty checkpoint history (without
that proviso the final status reset breaks it, as the counterexample
shows). -/
theorem C3_failed_status_inv_preservation (c : SimulationController)
    (n : Option String) (r : InitRand) (pid : Nat) (noise : Nat → Noise)
    (gen : Nat → Nat × Nat) :
    (FailedStatusInv c → FailedStatusInv (c.add_process n r).1) ∧
    (FailedStatusInv c → FailedStatusInv (c.remove_process pid)) ∧
    (FailedStatusInv c → FailedStatusInv (c.trigger_failure pid)) ∧
    (FailedStatusInv c → FailedStatusInv (c.step_computation noise gen).1) ∧
    (FailedStatusInv c → FailedStatusInv (c.initiate_checkpoint gen).1) ∧
    (FailedStatusInv c →
      (∀ p ∈ c.processes, p.is_failed = true → p.checkpoints ≠ []) →
      FailedStatusInv (c.initiate_recovery pid)) :=
  ⟨SimulationController.inv_add c n r, SimulationController.inv_remove c pid,
   SimulationController.inv_trigger_failure c pid,
   SimulationController.inv_step c noise gen,
   SimulationController.inv_initiate_checkpoint c gen,
   SimulationController.inv_recovery c pid⟩

/-- C3 witness: the amended theorem applied to the concrete controllers
`cB` (all engine operations) and `cA` (guarded recovery, where every failed
process has history). -/
theorem C3_witness :
    FailedStatusInv (cB.add_process none zeroRand).1 ∧
    FailedStatusInv (cB.remove_process 1) ∧
    FailedStatusInv (cB.trigger_failure 1) ∧
    FailedStatusInv (cB.step_computation noiseZ genZ).1 ∧
    FailedStatusInv (cB.initiate_checkpoint genZ).1 ∧
    FailedStatusInv (cA.initiate_recovery 0) :=
  ⟨(C3_failed_status_inv_preservation cB none zeroRand 1 noiseZ genZ).1
      (by decide),
   (C3_failed_status_inv_preservation cB none zeroRand 1 noiseZ genZ).2.1
      (by decide),
   (C3_failed_status_inv_preservation cB none zeroRand 1 noiseZ genZ).2.2.1
      (by decide),
   (C3_failed_status_inv_preservation cB none zeroRand 1 noiseZ genZ).2.2.2.1
      (by decide),
   (C3_failed_status_inv_preservation cB none zeroRand 1 noiseZ genZ).2.2.2.2.1
      (by decide),
   (C3_failed_status_inv_preservation cA none zeroRand 0 noiseZ genZ).2.2.2.2.2
      (by decide) (by decide)⟩

/-- C7: `step_computation` increments the global step counter, advances
every process exactly once (afterwards each process's state equals its state
after one `simulate_computation` at the configured speed), and runs the
checkpoint protocol exactly once iff auto mode is on and the incremented
counter is a multiple of the configured frequency (protocol runs counted by
their phase-1 start events); with frequency 5 this makes exactly steps 5 and
10 trigger one automatic run each. -/
theorem C7_step_auto_checkpoint (c : SimulationController) (noise : Nat → Noise)
    (gen : Nat → Nat × Nat) (_h : 0 < c.checkpoint_frequency) :
    (c.step_computation noise gen).1.step_count = c.step_count + 1 ∧
    ((c.step_computation noise gen).1.processes.map (fun p => p.state) =
      c.processes.map (fun p =>
        (p.simulate_computation c.computation_speed (noise p.pid)).state)) ∧
    ((c.step_computation noise gen).2.count Event.phase1Start =
      if c.auto_mode = true ∧ c.checkpoint_frequency ∣ (c.step_count + 1)
      then 1 else 0) := by
  refine ⟨SimulationController.step_computation_step_count c noise gen,
    SimulationController.step_computation_advances c noise gen, ?_⟩
  rw [SimulationController.step_computation_count_phase1Start]
  by_cases hb : c.auto_mode
  · by_cases hd : c.checkpoint_frequency ∣ (c.step_count + 1)
    · have hm : (c.step_count + 1) % c.checkpoint_frequency = 0 :=
        Nat.dvd_iff_mod_eq_zero.mp hd
      simp [hb, hd, hm]
    · have hm : (c.step_count + 1) % c.checkpoint_frequency ≠ 0 :=
        fun hc => hd (Nat.dvd_of_mod_eq_zero hc)
      simp [hb, hd, hm]
  · simp only [Bool.not_eq_true] at hb
    simp [hb]

/-- C7 witness: the theorem applied to `cC` (auto mode, frequency 5, step
counter 4), whose next step is the fifth and triggers exactly one run. -/
theorem C7_witness :
    0 < cC.checkpoint_frequency ∧
    ((cC.step_computation noiseZ genZ).1.step_count = cC.step_count + 1 ∧
      ((cC.step_computation noiseZ genZ).1.processes.map (fun p => p.state) =
        cC.processes.map (fun p =>
          (p.simulate_computation cC.computation_speed (noiseZ p.pid)).state)) ∧
      ((cC.step_computation noiseZ genZ).2.count Event.phase1Start =
        if cC.auto_mode = true ∧ cC.checkpoint_frequency ∣ (cC.step_count + 1)
        then 1 else 0)) :=
  ⟨by decide, C7_step_auto_checkpoint cC noiseZ genZ (by decide)⟩

/-- C8: starting a fresh run, after any sequence of add/remove commands the
pids handed out by `add_process` are strictly increasing (each is larger
than every previously returned pid, and none is ever reused), and the live
processes always carry pairwise distinct pids. -/
theorem C8_pids_unique_monotone (ops : List Op) :
    (runOps ops SimulationController.init).2.Pairwise (fun a b => a < b) ∧
    ((runOps ops SimulationController.init).1.processes.map
      (fun p => p.pid)).Nodup := by
  obtain ⟨-, -, -, g4, g5⟩ := runOps_spec ops SimulationController.init
    (fun p hp => absurd hp (by simp [SimulationController.init]))
    (by simp [SimulationController.init])
  exact ⟨g4, g5⟩

end KooToueg
